import Mathlib

/-!
Shallow embedding of the pixelation-and-distress pipeline of
src/pixelator.py (functions apply_distress_to_small_image and
pixelate_image), together with theorems settling the specification
claims about it.

Modelling conventions:
* A pixel carries three color channels and an opacity channel; for a
  3-channel (RGB) image the opacity field is normalised to 255, which is
  exactly the value PIL materialises when such an image is converted to
  RGBA.  Image modes beyond RGB/RGBA (grayscale-with-alpha, palettised
  with transparency) are subsumed into these two, since pixelate_image
  immediately converts every input to RGB or RGBA.
* The external resize/quantize primitives the code calls into (PIL) are
  not part of src/; they are embedded as follows.  LANCZOS downscale and
  MEDIANCUT quantisation: only their size/mode contracts are used, the
  pixel content is an abstract parameter.  NEAREST upscale: its sampling
  rule is load-bearing for the claims, so it is embedded concretely as
  the standard center-aligned nearest-neighbor rule used by PIL
  (source index = floor of (destination index + 1/2) * srcSize / dstSize).
* Python floats are embedded as exact rationals; the process-global
  random generator is an explicit per-pixel draw function; console
  warnings are explicit boolean fields of the result.
-/

namespace Pixelator

/-- One pixel: three color channels r, g, b and an opacity channel a. -/
structure Pix where
  r : Nat
  g : Nat
  b : Nat
  a : Nat
  deriving DecidableEq

/-- Image mode: opaque 3-channel RGB or translucent 4-channel RGBA. -/
inductive PMode where
  | RGB : PMode
  | RGBA : PMode
  deriving DecidableEq

/-- An image: its dimensions, its mode, and its pixel grid (total function;
only indices below the dimensions are meaningful). -/
structure Img where
  width : Nat
  height : Nat
  mode : PMode
  px : Nat → Nat → Pix

/-- PIL convert to RGBA: identity on RGBA images; on RGB images the mode
changes and every pixel receives opacity 255. -/
def toRGBA (img : Img) : Img :=
  if img.mode = PMode.RGBA then img
  else { img with mode := PMode.RGBA, px := fun x y => { img.px x y with a := 255 } }

/-- PIL convert to RGB: identity on RGB images; on RGBA images the mode
changes and the opacity channel is dropped (normalised to 255). -/
def toRGB (img : Img) : Img :=
  if img.mode = PMode.RGB then img
  else { img with mode := PMode.RGB, px := fun x y => { img.px x y with a := 255 } }

/-- PIL getchannel A: the opacity band of an image. -/
def getAlpha (img : Img) : Nat → Nat → Nat :=
  fun x y => (img.px x y).a

/-- PIL putalpha: attach the given opacity band, producing an RGBA image. -/
def putalpha (img : Img) (alpha : Nat → Nat → Nat) : Img :=
  { img with mode := PMode.RGBA, px := fun x y => { img.px x y with a := alpha x y } }

/-- Modelled from the spec: the quality downscale primitive
(PIL Image.resize with Resampling.LANCZOS) is an excluded external
capability; only its contract is embedded: it returns an image of exactly
the requested size in the same mode.  Its pixel content is the abstract
parameter lanczosPx. -/
def lanczosResize (lanczosPx : Img → Nat → Nat → Nat → Nat → Pix)
    (img : Img) (w h : Nat) : Img :=
  { width := w, height := h, mode := img.mode, px := lanczosPx img w h }

/-- Modelled from the spec: the palette-reduction primitive
(PIL quantize with MEDIANCUT, followed by convert to RGB) is an excluded
external capability; only its contract is embedded: it returns an RGB
image of the same size.  Its color content is the abstract parameter
quantPx; the opacity field is normalised to the RGB convention 255. -/
def quantizeRGB (quantPx : Img → Int → Nat → Nat → Pix) (img : Img) (cc : Int) : Img :=
  { width := img.width, height := img.height, mode := PMode.RGB,
    px := fun x y => { quantPx img cc x y with a := 255 } }

/-- Modelled from the spec: the nearest-neighbor upscale primitive
(PIL Image.resize with Resampling.NEAREST), external to src/.  Its
sampling rule is the standard center-aligned nearest-neighbor rule, which
is what PIL implements: destination pixel (x, y) samples the source at
index floor((x + 1/2) * srcWidth / dstWidth), written below in exact
natural-number arithmetic as (2x + 1) * srcWidth / (2 * dstWidth).
The mode is preserved. -/
def nearestResize (img : Img) (w h : Nat) : Img :=
  { width := w, height := h, mode := img.mode,
    px := fun x y =>
      img.px ((2 * x + 1) * img.width / (2 * w)) ((2 * y + 1) * img.height / (2 * h)) }

/-- The default decay rate 0.65 of apply_distress_to_small_image. -/
def defaultDecay : ℚ := 13 / 20

/-- The per-pixel chipping pass of apply_distress_to_small_image
(src/pixelator.py lines 49-65), as a pointwise map: pixel (bx, yb) of the
gw x gh grid is chipped (opacity set to 0, color untouched) exactly when
its own uniform draw rand bx yb is below
(intensity/100) * decay ^ distance_from_edge, where distance_from_edge is
min(min(bx, gw-1-bx), min(yb, gh-1-yb)); pixels outside the grid are
untouched, matching the loop bounds. -/
def distressPx (rand : Nat → Nat → ℚ) (intensity : Int) (decay : ℚ)
    (gw gh : Nat) (p : Nat → Nat → Pix) : Nat → Nat → Pix :=
  fun bx yb =>
    let d := min (min bx (gw - 1 - bx)) (min yb (gh - 1 - yb))
    if bx < gw ∧ yb < gh ∧ rand bx yb < (intensity : ℚ) / 100 * decay ^ d then
      { p bx yb with a := 0 }
    else p bx yb

/-- Result of apply_distress_to_small_image: the image, plus a flag for
each of the two console warnings the function can print (intensity out of
range; decay rate out of range). -/
structure DistressOut where
  img : Img
  warnedIntensity : Bool
  warnedDecay : Bool

/-- apply_distress_to_small_image (src/pixelator.py lines 11-68).
If the intensity is outside (0, 100] the input is returned unchanged with
the intensity warning.  Otherwise the image is converted to RGBA (a copy
when already RGBA), then, if the decay rate is outside (0, 1], the
default 0.65 is substituted with the decay warning, and the per-pixel
chipping pass runs. -/
def apply_distress_to_small_image (rand : Nat → Nat → ℚ) (small_img : Img)
    (intensity_percent : Int) (decay_rate : ℚ) : DistressOut :=
  if ¬ (0 < intensity_percent ∧ intensity_percent ≤ 100) then
    { img := small_img, warnedIntensity := true, warnedDecay := false }
  else
    let base := toRGBA small_img
    if ¬ (0 < decay_rate ∧ decay_rate ≤ 1) then
      { img := { base with
          px := distressPx rand intensity_percent defaultDecay base.width base.height base.px },
        warnedIntensity := false, warnedDecay := true }
    else
      { img := { base with
          px := distressPx rand intensity_percent decay_rate base.width base.height base.px },
        warnedIntensity := false, warnedDecay := false }

/-- The optional quantisation stage of pixelate_image
(src/pixelator.py lines 129-146).  When color_count is present and
positive: on an RGBA image the opacity band is held aside, quantisation
runs on the RGB projection, and the band is reattached unchanged; on
other images quantisation runs after conversion to RGB.  Otherwise the
stage is the identity. -/
def quantStage (quantPx : Img → Int → Nat → Nat → Pix) (img : Img)
    (color_count : Option Int) : Img :=
  match color_count with
  | some c =>
      if 0 < c then
        if img.mode = PMode.RGBA then
          putalpha (quantizeRGB quantPx (toRGB img) c) (getAlpha img)
        else
          quantizeRGB quantPx (toRGB img) c
      else img
  | none => img

/-- The intermediate and final values produced by one successful run of
pixelate_image. -/
structure PipelineResult where
  original_has_alpha : Bool
  small_img_base : Img
  processed_small_img : Img
  final_small_img : Img
  distressApplied : Bool
  output : Img

/-- The processing body of pixelate_image
(src/pixelator.py lines 94-175), after the pixel-size guard: classify the
input (original_has_alpha), convert it to RGBA or RGB accordingly,
downscale with LANCZOS to max(1, W // p) x max(1, H // p), optionally
quantise, apply the distress stage when distress_intensity > 0 and the
original was opaque (with the default decay rate), upscale back to the
original size with NEAREST, and finalise the mode: RGBA when the original
had opacity or the distress branch ran, RGB otherwise. -/
def pixelateCore (lanczosPx : Img → Nat → Nat → Nat → Nat → Pix)
    (quantPx : Img → Int → Nat → Nat → Pix) (rand : Nat → Nat → ℚ)
    (img : Img) (pixel_size : Int) (color_count : Option Int)
    (distress_intensity : Int) : PipelineResult :=
  let hasAlpha : Bool := img.mode = PMode.RGBA
  let img1 := if hasAlpha then toRGBA img else toRGB img
  let sw := max 1 (img.width / pixel_size.toNat)
  let sh := max 1 (img.height / pixel_size.toNat)
  let small := lanczosResize lanczosPx img1 sw sh
  let processed := quantStage quantPx small color_count
  let distressed : Bool := (0 < distress_intensity : Bool) && !hasAlpha
  let finalSmall :=
    if distressed then
      (apply_distress_to_small_image rand processed distress_intensity defaultDecay).img
    else processed
  let currentRGBA : Bool := hasAlpha || distressed
  let pixelated := nearestResize finalSmall img.width img.height
  let finalImg := if currentRGBA then toRGBA pixelated else toRGB pixelated
  { original_has_alpha := hasAlpha, small_img_base := small,
    processed_small_img := processed, final_small_img := finalSmall,
    distressApplied := distressed, output := finalImg }

/-- pixelate_image (src/pixelator.py lines 71-184): a non-positive pixel
size is rejected with a descriptive error before any processing; otherwise
the processing body runs and its result (the image that would be saved)
is returned. -/
def pixelate_image (lanczosPx : Img → Nat → Nat → Nat → Nat → Pix)
    (quantPx : Img → Int → Nat → Nat → Pix) (rand : Nat → Nat → ℚ)
    (img : Img) (pixel_size : Int) (color_count : Option Int)
    (distress_intensity : Int) : Except String PipelineResult :=
  if pixel_size ≤ 0 then
    Except.error "Error: Pixel size must be greater than 0."
  else
    Except.ok (pixelateCore lanczosPx quantPx rand img pixel_size color_count distress_intensity)

/-- A black pixel (fully opaque). -/
def blackPix : Pix := { r := 0, g := 0, b := 0, a := 255 }

/-- A white pixel (fully opaque). -/
def whitePix : Pix := { r := 255, g := 255, b := 255, a := 255 }

/-- A concrete 2 x 2 RGB small image: left column black, right column white. -/
def smallC1 : Img :=
  { width := 2, height := 2, mode := PMode.RGB,
    px := fun x _ => if x = 0 then blackPix else whitePix }

/-- A concrete random source: every draw is 1/2. -/
def randHalf : Nat → Nat → ℚ := fun _ _ => 1 / 2

/-- A concrete 1 x 1 opaque RGB image. -/
def img1x1 : Img := { width := 1, height := 1, mode := PMode.RGB, px := fun _ _ => blackPix }

/-- A concrete 2 x 2 RGBA image with a non-constant opacity band. -/
def imgRGBA2 : Img :=
  { width := 2, height := 2, mode := PMode.RGBA,
    px := fun x y => { r := x, g := y, b := 0, a := x + 7 } }

/-- A concrete instantiation of the abstract quantisation content. -/
def quantPx0 : Img → Int → Nat → Nat → Pix := fun _ _ _ _ => blackPix

/-- A concrete instantiation of the abstract LANCZOS content. -/
def lanczosPx0 : Img → Nat → Nat → Nat → Nat → Pix := fun _ _ _ _ _ => blackPix

/-- A concrete 10 x 10 opaque RGB image. -/
def img10 : Img := { width := 10, height := 10, mode := PMode.RGB, px := fun _ _ => whitePix }

/-- The mode of a toRGBA conversion is always RGBA. -/
theorem toRGBA_mode (img : Img) : (toRGBA img).mode = PMode.RGBA := by
  unfold toRGBA
  by_cases h : img.mode = PMode.RGBA <;> simp [h]

/-- The mode of a toRGB conversion is always RGB. -/
theorem toRGB_mode (img : Img) : (toRGB img).mode = PMode.RGB := by
  unfold toRGB
  by_cases h : img.mode = PMode.RGB <;> simp [h]

/-- C2: for every input image and every pixel_size p > 0, the pipeline
accepts the configuration and the downscaled intermediate has dimensions
max(1, floor(W/p)) by max(1, floor(H/p)). -/
theorem downscale_dims (lanczosPx : Img → Nat → Nat → Nat → Nat → Pix)
    (quantPx : Img → Int → Nat → Nat → Pix) (rand : Nat → Nat → ℚ)
    (img : Img) (p : Int) (cc : Option Int) (di : Int) (hp : 0 < p) :
    pixelate_image lanczosPx quantPx rand img p cc di =
      Except.ok (pixelateCore lanczosPx quantPx rand img p cc di) ∧
    (pixelateCore lanczosPx quantPx rand img p cc di).small_img_base.width =
      max 1 (img.width / p.toNat) ∧
    (pixelateCore lanczosPx quantPx rand img p cc di).small_img_base.height =
      max 1 (img.height / p.toNat) := by
  refine ⟨?_, rfl, rfl⟩
  rw [pixelate_image, if_neg (not_le.mpr hp)]

/-- C2 witness at a concrete input: a 10 x 10 image with pixel size 4
gives a 2 x 2 intermediate. -/
theorem downscale_dims_witness :
    pixelate_image lanczosPx0 quantPx0 randHalf img10 4 none 0 =
      Except.ok (pixelateCore lanczosPx0 quantPx0 randHalf img10 4 none 0) ∧
    (pixelateCore lanczosPx0 quantPx0 randHalf img10 4 none 0).small_img_base.width =
      max 1 (img10.width / (4 : Int).toNat) ∧
    (pixelateCore lanczosPx0 quantPx0 randHalf img10 4 none 0).small_img_base.height =
      max 1 (img10.height / (4 : Int).toNat) :=
  downscale_dims lanczosPx0 quantPx0 randHalf img10 4 none 0 (by decide)

/-- C8: a non-positive pixel size is rejected with a descriptive error and
the pipeline produces no output at all. -/
theorem pixel_size_rejected (lanczosPx : Img → Nat → Nat → Nat → Nat → Pix)
    (quantPx : Img → Int → Nat → Nat → Pix) (rand : Nat → Nat → ℚ)
    (img : Img) (p : Int) (cc : Option Int) (di : Int) (hp : p ≤ 0) :
    pixelate_image lanczosPx quantPx rand img p cc di =
      Except.error "Error: Pixel size must be greater than 0." := by
  rw [pixelate_image, if_pos hp]

/-- C8 witness at a concrete input: pixel size 0 is rejected. -/
theorem pixel_size_rejected_witness :
    pixelate_image lanczosPx0 quantPx0 randHalf img10 0 none 0 =
      Except.error "Error: Pixel size must be greater than 0." :=
  pixel_size_rejected lanczosPx0 quantPx0 randHalf img10 0 none 0 (by decide)

/-- C9: when color_count is absent or non-positive, the palette-reduction
stage is the identity on the downscaled image. -/
theorem quantStage_identity (quantPx : Img → Int → Nat → Nat → Pix) (img : Img)
    (cc : Option Int) (h : cc = none ∨ ∃ c, cc = some c ∧ c ≤ 0) :
    quantStage quantPx img cc = img := by
  rcases h with h | ⟨c, rfl, hc⟩
  · subst h; rfl
  · rw [quantStage]
    simp [not_lt.mpr hc]

/-- C9 witness at a concrete input: an absent color count leaves the image
untouched. -/
theorem quantStage_identity_witness :
    quantStage quantPx0 img1x1 none = img1x1 :=
  quantStage_identity quantPx0 img1x1 none (Or.inl rfl)

/-- C10: an intensity outside (0, 100] (zero, negative, or above 100)
makes the distress stage return its input image unchanged, with the
intensity warning reported and no decay warning; in particular no pixel
is modified and no opacity channel is added. -/
theorem distress_skips_out_of_range_intensity (rand : Nat → Nat → ℚ) (s : Img)
    (i : Int) (d : ℚ) (h : ¬ (0 < i ∧ i ≤ 100)) :
    apply_distress_to_small_image rand s i d =
      { img := s, warnedIntensity := true, warnedDecay := false } := by
  rw [apply_distress_to_small_image, if_pos h]

/-- C10 witness at a concrete input: intensity 150, which the pipeline
itself does not guard against, gives the identity with the warning. -/
theorem distress_skips_out_of_range_intensity_witness :
    apply_distress_to_small_image randHalf img1x1 150 defaultDecay =
      { img := img1x1, warnedIntensity := true, warnedDecay := false } :=
  distress_skips_out_of_range_intensity randHalf img1x1 150 defaultDecay (by decide)

/-- C7 counterexample: with intensity 0 (an intensity the claim also
quantifies over) and decay rate 2, which is outside (0, 1], the stage
reports no decay warning and does not continue distressing: it returns
its input unchanged, contradicting the claim as stated. -/
theorem decay_warning_skipped_at_invalid_intensity :
    (apply_distress_to_small_image randHalf img1x1 0 2).warnedDecay = false ∧
    (apply_distress_to_small_image randHalf img1x1 0 2).img = img1x1 := by
  constructor <;> rfl

/-- C7 amended: for every intensity inside (0, 100], a decay rate outside
(0, 1] is replaced by the default 0.65 with a reported warning, and the
stage continues distressing with that default rather than aborting: its
image output is exactly the one produced with decay rate 0.65. -/
theorem decay_defaulted (rand : Nat → Nat → ℚ) (s : Img) (i : Int) (d : ℚ)
    (hi : 0 < i ∧ i ≤ 100) (hd : ¬ (0 < d ∧ d ≤ 1)) :
    (apply_distress_to_small_image rand s i d).warnedDecay = true ∧
    (apply_distress_to_small_image rand s i d).img =
      (apply_distress_to_small_image rand s i defaultDecay).img := by
  have hdef : (0 < defaultDecay ∧ defaultDecay ≤ 1) := by
    constructor <;> norm_num [defaultDecay]
  rw [apply_distress_to_small_image, if_neg (not_not_intro hi)]
  rw [apply_distress_to_small_image, if_neg (not_not_intro hi)]
  simp only [if_pos hd, if_neg (not_not_intro hdef)]
  exact ⟨trivial, trivial⟩

/-- C7 amended witness at a concrete input: intensity 50, decay rate 2. -/
theorem decay_defaulted_witness :
    (apply_distress_to_small_image randHalf img1x1 50 2).warnedDecay = true ∧
    (apply_distress_to_small_image randHalf img1x1 50 2).img =
      (apply_distress_to_small_image randHalf img1x1 50 defaultDecay).img :=
  decay_defaulted randHalf img1x1 50 2 (by decide) (by simp)

/-- C3: when the downscaled image carries an opacity channel and the color
count is positive, the palette-reduction stage leaves the opacity channel
byte-for-byte identical at every pixel. -/
theorem quantize_preserves_alpha (quantPx : Img → Int → Nat → Nat → Pix)
    (img : Img) (c : Int) (x y : Nat)
    (hmode : img.mode = PMode.RGBA) (hc : 0 < c) :
    ((quantStage quantPx img (some c)).px x y).a = (img.px x y).a := by
  simp [quantStage, if_pos hc, hmode, putalpha, getAlpha]

/-- C3 witness at a concrete input: a 2 x 2 RGBA image with a non-constant
opacity band, quantised to 5 colors, keeps its opacity at pixel (1, 0). -/
theorem quantize_preserves_alpha_witness :
    ((quantStage quantPx0 imgRGBA2 (some 5)).px 1 0).a = (imgRGBA2.px 1 0).a :=
  quantize_preserves_alpha quantPx0 imgRGBA2 5 1 0 rfl (by decide)

/-- C4: for an RGBA small image, a valid intensity and a valid decay rate,
every in-range pixel (bx, yb) of the distress output is chipped (opacity
set to 0, color channels untouched) exactly when its own uniform draw is
below (intensity/100) * decay ^ distance_from_edge, with
distance_from_edge = min(min(bx, gw-1-bx), min(yb, gh-1-yb)); otherwise
the pixel is unchanged. -/
theorem distress_pixel_rule (rand : Nat → Nat → ℚ) (s : Img) (i : Int)
    (d : ℚ) (bx yb : Nat) (hmode : s.mode = PMode.RGBA)
    (hi : 0 < i ∧ i ≤ 100) (hd : 0 < d ∧ d ≤ 1)
    (hbx : bx < s.width) (hyb : yb < s.height) :
    (apply_distress_to_small_image rand s i d).img.px bx yb =
      (if rand bx yb < (i : ℚ) / 100 *
          d ^ (min (min bx (s.width - 1 - bx)) (min yb (s.height - 1 - yb))) then
        { s.px bx yb with a := 0 }
      else s.px bx yb) := by
  have hs : toRGBA s = s := by rw [toRGBA, if_pos hmode]
  rw [apply_distress_to_small_image, if_neg (not_not_intro hi)]
  simp only [hs, if_neg (not_not_intro hd)]
  simp [distressPx, hbx, hyb]

/-- C4 witness at a concrete input: pixel (0, 1) of a 2 x 2 RGBA image at
intensity 80 and decay rate 1. -/
theorem distress_pixel_rule_witness :
    (apply_distress_to_small_image randHalf imgRGBA2 80 1).img.px 0 1 =
      (if randHalf 0 1 < ((80 : Int) : ℚ) / 100 *
          (1 : ℚ) ^ (min (min 0 (imgRGBA2.width - 1 - 0)) (min 1 (imgRGBA2.height - 1 - 1))) then
        { imgRGBA2.px 0 1 with a := 0 }
      else imgRGBA2.px 0 1) :=
  distress_pixel_rule randHalf imgRGBA2 80 1 0 1 rfl (by decide) (by simp)
    (by decide) (by decide)

/-- C5: when the original input carries an opacity channel, the distress
stage is never applied, even for a positive requested intensity: the
image handed to the upscale step is exactly the palette-reduced one. -/
theorem translucent_input_never_distressed
    (lanczosPx : Img → Nat → Nat → Nat → Nat → Pix)
    (quantPx : Img → Int → Nat → Nat → Pix) (rand : Nat → Nat → ℚ)
    (img : Img) (p : Int) (cc : Option Int) (di : Int)
    (hp : 0 < p) (halpha : img.mode = PMode.RGBA) :
    pixelate_image lanczosPx quantPx rand img p cc di =
      Except.ok (pixelateCore lanczosPx quantPx rand img p cc di) ∧
    (pixelateCore lanczosPx quantPx rand img p cc di).distressApplied = false ∧
    (pixelateCore lanczosPx quantPx rand img p cc di).final_small_img =
      (pixelateCore lanczosPx quantPx rand img p cc di).processed_small_img := by
  refine ⟨by rw [pixelate_image, if_neg (not_le.mpr hp)], ?_, ?_⟩
  · simp [pixelateCore, halpha]
  · simp [pixelateCore, halpha]

/-- C5 witness at a concrete input: an RGBA input with requested distress
intensity 40 is not distressed. -/
theorem translucent_input_never_distressed_witness :
    pixelate_image lanczosPx0 quantPx0 randHalf imgRGBA2 1 none 40 =
      Except.ok (pixelateCore lanczosPx0 quantPx0 randHalf imgRGBA2 1 none 40) ∧
    (pixelateCore lanczosPx0 quantPx0 randHalf imgRGBA2 1 none 40).distressApplied = false ∧
    (pixelateCore lanczosPx0 quantPx0 randHalf imgRGBA2 1 none 40).final_small_img =
      (pixelateCore lanczosPx0 quantPx0 randHalf imgRGBA2 1 none 40).processed_small_img :=
  translucent_input_never_distressed lanczosPx0 quantPx0 randHalf imgRGBA2 1 none 40
    (by decide) rfl

/-- C6: for every successfully processed input, the finalized output image
is translucent (RGBA) if and only if the original input had an opacity
channel or the distress branch was applied, and is opaque (RGB)
otherwise. -/
theorem final_mode_iff (lanczosPx : Img → Nat → Nat → Nat → Nat → Pix)
    (quantPx : Img → Int → Nat → Nat → Pix) (rand : Nat → Nat → ℚ)
    (img : Img) (p : Int) (cc : Option Int) (di : Int) (hp : 0 < p) :
    pixelate_image lanczosPx quantPx rand img p cc di =
      Except.ok (pixelateCore lanczosPx quantPx rand img p cc di) ∧
    ((pixelateCore lanczosPx quantPx rand img p cc di).output.mode = PMode.RGBA ↔
      (img.mode = PMode.RGBA ∨
        (pixelateCore lanczosPx quantPx rand img p cc di).distressApplied = true)) := by
  refine ⟨by rw [pixelate_image, if_neg (not_le.mpr hp)], ?_⟩
  by_cases ha : img.mode = PMode.RGBA <;> by_cases hdi : 0 < di <;>
    simp [pixelateCore, ha, hdi, toRGBA_mode, toRGB_mode]

/-- C6 witness at a concrete input: an opaque input with distress requested
yields a translucent output, matching the equivalence. -/
theorem final_mode_iff_witness :
    pixelate_image lanczosPx0 quantPx0 randHalf img10 4 none 30 =
      Except.ok (pixelateCore lanczosPx0 quantPx0 randHalf img10 4 none 30) ∧
    ((pixelateCore lanczosPx0 quantPx0 randHalf img10 4 none 30).output.mode = PMode.RGBA ↔
      (img10.mode = PMode.RGBA ∨
        (pixelateCore lanczosPx0 quantPx0 randHalf img10 4 none 30).distressApplied = true)) :=
  final_mode_iff lanczosPx0 quantPx0 randHalf img10 4 none 30 (by decide)

/-- Center-aligned nearest-neighbor source index: for a positive block
size p, floor((2x+1)/(2p)) equals floor(x/p). -/
theorem nearest_center_div (x p : Nat) (hp : 0 < p) :
    (2 * x + 1) / (2 * p) = x / p := by
  have h1 := Nat.div_add_mod x p
  have h2 := Nat.mod_lt x hp
  apply Nat.div_eq_of_lt_le
  · have e1 : x / p * (2 * p) = 2 * (p * (x / p)) := by ring
    rw [e1]; omega
  · have e2 : (x / p + 1) * (2 * p) = 2 * (p * (x / p)) + 2 * p := by ring
    rw [e2]; omega

/-- C1 counterexample: a 2 x 2 small image of the exact downscale
dimensions for a 10 x 10 input with pixel size 4, upscaled back to
10 x 10 with nearest-neighbor sampling, disagrees with the claimed rule
output(x, y) = small(x // p, y // p) at the in-range pixel (4, 0), which
is not in the final partial block: nearest-neighbor places the block
boundary at column 5 = 10/2, not at the multiple of p = 4. -/
theorem upscale_block_formula_fails :
    smallC1.width = max 1 (10 / 4) ∧ smallC1.height = max 1 (10 / 4) ∧
    4 < 10 ∧ 0 < 10 ∧
    (nearestResize smallC1 10 10).px 4 0 ≠
      smallC1.px (min (4 / 4) (smallC1.width - 1)) (min (0 / 4) (smallC1.height - 1)) := by
  decide

/-- C1 amended: when the pixel size p divides both target dimensions (so
no partial block exists), nearest-neighbor upscaling of a small image of
the downscale dimensions W/p x H/p reproduces each small pixel exactly
across its full block footprint: output(x, y) = small(x / p, y / p) for
every in-range pixel. -/
theorem upscale_exact_when_divisible (s : Img) (W H p x y : Nat)
    (hp : 0 < p) (hW : p ∣ W) (hH : p ∣ H) (hW0 : 0 < W) (hH0 : 0 < H)
    (hsw : s.width = W / p) (hsh : s.height = H / p)
    (hx : x < W) (hy : y < H) :
    (nearestResize s W H).px x y = s.px (x / p) (y / p) := by
  obtain ⟨m, rfl⟩ := hW
  obtain ⟨n, rfl⟩ := hH
  have hm : 0 < m := by
    rcases Nat.eq_zero_or_pos m with h | h
    · subst h; simp at hW0
    · exact h
  have hn : 0 < n := by
    rcases Nat.eq_zero_or_pos n with h | h
    · subst h; simp at hH0
    · exact h
  have hsw2 : s.width = m := by rw [hsw, Nat.mul_div_cancel_left m hp]
  have hsh2 : s.height = n := by rw [hsh, Nat.mul_div_cancel_left n hp]
  show s.px ((2 * x + 1) * s.width / (2 * (p * m)))
      ((2 * y + 1) * s.height / (2 * (p * n))) = s.px (x / p) (y / p)
  rw [hsw2, hsh2]
  have ex : (2 * x + 1) * m / (2 * (p * m)) = x / p := by
    rw [show 2 * (p * m) = 2 * p * m by ring, Nat.mul_div_mul_right _ _ hm,
      nearest_center_div x p hp]
  have ey : (2 * y + 1) * n / (2 * (p * n)) = y / p := by
    rw [show 2 * (p * n) = 2 * p * n by ring, Nat.mul_div_mul_right _ _ hn,
      nearest_center_div y p hp]
  rw [ex, ey]

/-- C1 amended witness at a concrete input: an 8 x 8 target with pixel
size 4 (which divides both dimensions) reproduces small pixel (1, 0) at
output pixel (5, 2). -/
theorem upscale_exact_when_divisible_witness :
    (nearestResize smallC1 8 8).px 5 2 = smallC1.px (5 / 4) (2 / 4) :=
  upscale_exact_when_divisible smallC1 8 8 4 5 2 (by decide) (by decide)
    (by decide) (by decide) (by decide) (by decide) (by decide) (by decide)
    (by decide)

end Pixelator
